import Mathlib

/-!
Shallow embedding of the record store of `src/app.py` (a Streamlit app over
SQLite).  The store consists of `initialize_db`, `insert_row`,
`fetch_table_data`, `generate_unique_id`, and the bulk
`DELETE FROM {table}` statement issued in `data_management`.

The backing engine is SQLite, so the embedding models the SQLite semantics
the source relies on:
  * table and column identifiers are resolved ASCII case-insensitively;
  * `CREATE TABLE IF NOT EXISTS` is create-if-absent;
  * columns omitted from an INSERT column list are stored as NULL
    (no column of these schemas has a NOT NULL constraint or a default);
  * a `TEXT PRIMARY KEY` column admits NULL values, and several rows may
    all have a NULL key (documented SQLite behaviour for rowid tables:
    NULLs are permitted in non-INTEGER primary keys and are pairwise
    distinct for uniqueness);
  * inserting a row whose non-NULL key equals the key of an existing row
    fails with an IntegrityError (UNIQUE constraint) and changes nothing;
  * an empty field-mapping makes `insert_row` build
    `INSERT INTO t () VALUES ()`, which is invalid SQL: SQLite raises an
    OperationalError syntax error while parsing, before any table-name
    resolution;
  * an unknown table name raises an OperationalError (`no such table`),
    an unknown column name an OperationalError (`no such column`);
  * a mapping with duplicate case-variant keys stores the first value for
    the column (matching `lookupCI` below);
  * `FOREIGN KEY` clauses are inert because the code never issues
    `PRAGMA foreign_keys = ON` (SQLite defaults to OFF), so referential
    fields are not validated;
  * `SELECT *` returns rows in rowid order, which for this app (only
    whole-table deletes, no updates) is insertion order.

Only simple-identifier table-name strings are in the scope of the model;
strings that are themselves SQL fragments are outside it.
-/

namespace Sana

/-- SQL storage values reaching the store in this app: SQLite NULL, TEXT,
and REAL (modelled as rationals). -/
inductive Value where
  | null : Value
  | text (s : String) : Value
  | real (q : ℚ) : Value
deriving DecidableEq, Repr

/-- Errors raised by the sqlite3 driver as exercised by this app.  The code
defines no error types of its own (in particular no SchemaError or
StorageError); sqlite3 exceptions propagate uncaught. -/
inductive DBError where
  | operationalError (msg : String) : DBError
  | integrityError (msg : String) : DBError
deriving DecidableEq, Repr

/-- One SQLite table: its name, column names in declaration order, the
PRIMARY KEY column, and the stored rows (each aligned with `cols`),
in insertion order. -/
structure Table where
  name : String
  cols : List String
  pkCol : String
  rows : List (List Value)
deriving DecidableEq, Repr

/-- The database file's state: the list of existing tables. -/
abbrev DB := List Table

/-- Result of `fetch_table_data`: the pandas DataFrame's column names
(from the cursor description) and its rows. -/
structure Frame where
  cols : List String
  rows : List (List Value)
deriving DecidableEq, Repr

/-- ASCII lowercasing of one character. -/
def lowerChar (c : Char) : Char :=
  if 'A' ≤ c ∧ c ≤ 'Z' then Char.ofNat (c.toNat + 32) else c

/-- Case-insensitive (ASCII) identifier equality: how SQLite matches table
and column names. -/
def eqCI (a b : String) : Bool :=
  decide (a.data.map lowerChar = b.data.map lowerChar)

/-- Resolve a table name against the database, case-insensitively. -/
def lookupTable (db : DB) (t : String) : Option Table :=
  db.find? (fun T => eqCI T.name t)

/-- Replace every table matching the given name. -/
def updateTable (db : DB) (t : String) (W : Table) : DB :=
  db.map (fun U => if eqCI U.name t then W else U)

/-- The rows currently stored under a table name (empty if absent). -/
def tableRows (db : DB) (t : String) : List (List Value) :=
  match lookupTable db t with
  | some T => T.rows
  | none => []

/-- Look up a key in a field-mapping (the Python dict passed to
`insert_row`), matching the key case-insensitively as SQLite matches the
INSERT column list against the schema. -/
def lookupCI (data : List (String × Value)) (c : String) : Option Value :=
  (data.find? (fun kv => eqCI kv.1 c)).map (fun kv => kv.2)

/-- The row a SQLite INSERT stores: each schema column takes the supplied
value, or NULL when the column is absent from the INSERT column list. -/
def buildRow (cols : List String) (data : List (String × Value)) : List Value :=
  cols.map (fun col => (lookupCI data col).getD Value.null)

/-- Index of the first column matching a name case-insensitively. -/
def colIndex (cols : List String) (c : String) : Option Nat :=
  match cols with
  | [] => none
  | col :: rest => if eqCI col c then some 0 else (colIndex rest c).map (fun i => i + 1)

/-- The primary-key value of a stored row. -/
def pkOfRow (cols : List String) (pk : String) (r : List Value) : Value :=
  match colIndex cols pk with
  | some i => (r[i]?).getD Value.null
  | none => Value.null

/-- The key value an INSERT supplies for the primary-key column
(NULL when the mapping omits it). -/
def pkValOf (T : Table) (data : List (String × Value)) : Value :=
  (lookupCI data T.pkCol).getD Value.null

/-- The column names are pairwise distinct even case-insensitively. -/
def ciDistinct : List String → Bool
  | [] => true
  | c :: rest => rest.all (fun d => !(eqCI c d)) && ciDistinct rest

/-- `insert_row(table, data)` of src/app.py lines 92-97: builds
`INSERT INTO {table} ({data.keys()}) VALUES (?…)` and runs it via
`execute_query`.  Per the SQLite semantics in the file comment: an empty
mapping yields `INSERT INTO t () VALUES ()`, rejected with an
OperationalError syntax error at parse time, before name resolution;
unknown table → OperationalError; unknown column in the mapping →
OperationalError; duplicate non-NULL primary key → IntegrityError;
otherwise the new row is appended, with NULL for every omitted column. -/
def insert_row (db : DB) (table : String) (data : List (String × Value)) :
    Except DBError DB :=
  if data.isEmpty then
    .error (.operationalError "syntax error")
  else
    match lookupTable db table with
    | none => .error (.operationalError "no such table")
    | some T =>
      if data.all (fun kv => T.cols.any (fun col => eqCI kv.1 col)) then
        if pkValOf T data ≠ Value.null ∧
            ∃ r ∈ T.rows, pkOfRow T.cols T.pkCol r = pkValOf T data then
          .error (.integrityError "UNIQUE constraint failed")
        else
          .ok (updateTable db table { T with rows := T.rows ++ [buildRow T.cols data] })
      else
        .error (.operationalError "no such column")

/-- `fetch_table_data(table)` of src/app.py lines 100-103: runs
`SELECT * FROM {table}` and wraps the rows in a DataFrame whose columns
come from the cursor description.  Unknown table → OperationalError. -/
def fetch_table_data (db : DB) (table : String) : Except DBError Frame :=
  match lookupTable db table with
  | none => .error (.operationalError "no such table")
  | some T => .ok ⟨T.cols, T.rows⟩

/-- Models the statement `DELETE FROM {table}` issued through
`execute_query` in `data_management` (src/app.py line 207): removes every
row of the table, keeping its schema.  Unknown table → OperationalError. -/
def delete_all_rows (db : DB) (table : String) : Except DBError DB :=
  match lookupTable db table with
  | none => .error (.operationalError "no such table")
  | some _ =>
    .ok (db.map (fun U => if eqCI U.name table then { U with rows := [] } else U))

/-- The Leads schema created by `initialize_db` (src/app.py lines 18-27). -/
def leadsSchema : Table :=
  ⟨"Leads", ["LeadID", "LeadSource", "ReferralSource", "LeadCost", "ReceivedDate", "Status"],
    "LeadID", []⟩

/-- The Projects schema created by `initialize_db` (src/app.py lines 28-37). -/
def projectsSchema : Table :=
  ⟨"Projects", ["ProjectID", "LeadID", "ProjectType", "StartDate", "ContractValue"],
    "ProjectID", []⟩

/-- The DailyUpdates schema created by `initialize_db` (src/app.py lines 38-47). -/
def dailyUpdatesSchema : Table :=
  ⟨"DailyUpdates", ["UpdateID", "ProjectID", "Date", "HoursWorked", "MaterialCosts"],
    "UpdateID", []⟩

/-- The Equipment schema created by `initialize_db` (src/app.py lines 48-55). -/
def equipmentSchema : Table :=
  ⟨"Equipment", ["EquipmentID", "Type", "PurchaseDate", "CurrentStatus"],
    "EquipmentID", []⟩

/-- The Vendors schema created by `initialize_db` (src/app.py lines 56-63). -/
def vendorsSchema : Table :=
  ⟨"Vendors", ["VendorID", "Name", "ServiceType", "RateStructure"],
    "VendorID", []⟩

/-- The five schemas, in the dict order of `tables` in `initialize_db`. -/
def schemaList : List Table :=
  [leadsSchema, projectsSchema, dailyUpdatesSchema, equipmentSchema, vendorsSchema]

/-- The five collection names, as spelled in src/app.py. -/
def validNames : List String :=
  ["Leads", "Projects", "DailyUpdates", "Equipment", "Vendors"]

/-- One `CREATE TABLE IF NOT EXISTS` statement: a no-op when a table of
that name already exists, otherwise the empty table is added. -/
def createTableIfNotExists (db : DB) (T : Table) : DB :=
  if (lookupTable db T.name).isSome then db else db ++ [T]

/-- `initialize_db()` of src/app.py lines 12-71: executes the five
`CREATE TABLE IF NOT EXISTS` statements in order. -/
def init_db (db : DB) : DB :=
  schemaList.foldl createTableIfNotExists db

/-- Whether a store operation returned without raising. -/
def succeeds {α : Type} : Except DBError α → Bool
  | .ok _ => true
  | .error _ => false

/-- Lowercase hexadecimal digit for a value below 16 ('%x' formatting). -/
def hexDigit (n : Nat) : Char :=
  if n < 10 then Char.ofNat (48 + n) else Char.ofNat (87 + n)

/-- Fixed-width big-endian lowercase hexadecimal rendering of `n % 16^w`. -/
def toHexChars : Nat → Nat → List Char
  | 0, _ => []
  | w + 1, n => toHexChars w (n / 16) ++ [hexDigit (n % 16)]

/-- `str(uuid)`: the canonical 8-4-4-4-12 lowercase hexadecimal text of a
128-bit value, 36 characters with hyphens at indices 8, 13, 18 and 23. -/
def uuidChars (n : Nat) : List Char :=
  toHexChars 8 (n / 2 ^ 96) ++ '-' ::
    (toHexChars 4 (n / 2 ^ 80 % 2 ^ 16) ++ '-' ::
      (toHexChars 4 (n / 2 ^ 64 % 2 ^ 16) ++ '-' ::
        (toHexChars 4 (n / 2 ^ 48 % 2 ^ 16) ++ '-' :: toHexChars 12 (n % 2 ^ 48))))

/-- `uuid.uuid4()` on 128 fresh random bits `r`: the version nibble
(bits 76-79) is forced to 4 and the variant bits (62-63) to `10`. -/
def uuid4Of (r : Nat) : Nat :=
  let r0 := r % 2 ^ 128
  let r1 := r0 / 2 ^ 80 * 2 ^ 80 + 4 * 2 ^ 76 + r0 % 2 ^ 76
  r1 / 2 ^ 64 * 2 ^ 64 + 2 * 2 ^ 62 + r1 % 2 ^ 62

/-- `generate_unique_id()` of src/app.py lines 106-108:
`str(uuid.uuid4())[:8]`, a pure function of the drawn 128 random bits `r`;
it touches no database state. -/
def generate_unique_id (r : Nat) : String :=
  String.mk ((uuidChars (uuid4Of r)).take 8)

/-- Lowercase hexadecimal digits. -/
def isLowerHexDigit (c : Char) : Bool :=
  ('0' ≤ c && c ≤ '9') || ('a' ≤ c && c ≤ 'f')

/-- Database states reachable by the app: `initialize_db` on the fresh
file, followed by any succession of store operations (`fetch_table_data`
does not change state; `initialize_db` may be re-run on process start). -/
inductive Reachable : DB → Prop
  | init : Reachable (init_db [])
  | reinit {db : DB} : Reachable db → Reachable (init_db db)
  | insert {db db' : DB} {t : String} {m : List (String × Value)} :
      Reachable db → insert_row db t m = .ok db' → Reachable db'
  | delete {db db' : DB} {t : String} :
      Reachable db → delete_all_rows db t = .ok db' → Reachable db'

/-- No table holds two rows with equal non-NULL primary-key values. -/
def UniqueIds (db : DB) : Prop :=
  ∀ T ∈ db, T.rows.Pairwise
    (fun r s => ¬(pkOfRow T.cols T.pkCol r ≠ Value.null ∧
      pkOfRow T.cols T.pkCol r = pkOfRow T.cols T.pkCol s))

/-- Value a fetched record holds under a column name (case-insensitive). -/
def recordLookup (cols : List String) (row : List Value) (k : String) : Option Value :=
  ((cols.zip row).find? (fun p => eqCI p.1 k)).map (fun p => p.2)

/-- The example Lead field-mapping of spec.md §8, in the form the Leads
form of `input_forms` passes to `insert_row`. -/
def fullLeadExample : List (String × Value) :=
  [("LeadID", Value.text "abc12345"), ("LeadSource", Value.text "Referral"),
   ("ReferralSource", Value.text "Friend"), ("LeadCost", Value.real 0),
   ("ReceivedDate", Value.text "2024-01-05"), ("Status", Value.text "New")]

/-- The stored row for `fullLeadExample`, in Leads column order. -/
def demoLeadRow : List Value :=
  [Value.text "abc12345", Value.text "Referral", Value.text "Friend",
   Value.real 0, Value.text "2024-01-05", Value.text "New"]

/-- An initialized store holding one Lead record. -/
def dbDemo : DB :=
  [{ leadsSchema with rows := [demoLeadRow] },
   projectsSchema, dailyUpdatesSchema, equipmentSchema, vendorsSchema]

/-- A Project field-mapping whose LeadID matches no Lead of `dbDemo`. -/
def projectExample : List (String × Value) :=
  [("ProjectID", Value.text "pppp1111"), ("LeadID", Value.text "zzzz0000"),
   ("ProjectType", Value.text "Roofing"), ("StartDate", Value.text "2024-02-01"),
   ("ContractValue", Value.real 0)]

/-! ### Helper lemmas -/

theorem eqCI_refl (a : String) : eqCI a a = true := by
  simp [eqCI]

theorem eqCI_symm (a b : String) : eqCI a b = eqCI b a := by
  simp [eqCI, eq_comm]

theorem eqCI_congr_right {a b : String} (h : eqCI a b = true) (k : String) :
    eqCI k a = eqCI k b := by
  simp only [eqCI, decide_eq_true_eq] at h
  simp [eqCI, h]

theorem findCongr {α : Type} {p q : α → Bool} (h : ∀ x, p x = q x) :
    ∀ l : List α, l.find? p = l.find? q := by
  intro l
  induction l with
  | nil => rfl
  | cons x xs ih => simp only [List.find?, h x]; rw [ih]

theorem lookupCI_congr {c c' : String} (h : eqCI c c' = true)
    (m : List (String × Value)) : lookupCI m c = lookupCI m c' := by
  unfold lookupCI
  rw [findCongr (fun kv => eqCI_congr_right h kv.1) m]

theorem ciDistinct_iff (l : List String) :
    ciDistinct l = true ↔ l.Pairwise (fun a b => eqCI a b = false) := by
  induction l with
  | nil => simp [ciDistinct]
  | cons c rest ih =>
    simp only [ciDistinct, Bool.and_eq_true, List.all_eq_true, List.pairwise_cons, ih]
    constructor
    · rintro ⟨h1, h2⟩
      exact ⟨fun d hd => by simpa using h1 d hd, h2⟩
    · rintro ⟨h1, h2⟩
      exact ⟨fun d hd => by simpa using h1 d hd, h2⟩

theorem lookupCI_of_pairwise {m : List (String × Value)} {k : String} {v : Value}
    (hp : m.Pairwise (fun p q => eqCI p.1 q.1 = false)) (hm : (k, v) ∈ m) :
    lookupCI m k = some v := by
  induction m with
  | nil => cases hm
  | cons p rest ih =>
    rcases List.pairwise_cons.mp hp with ⟨hhead, htail⟩
    rcases List.mem_cons.mp hm with h | h
    · subst h
      simp [lookupCI, List.find?, eqCI_refl]
    · have hfalse : eqCI p.1 k = false := hhead (k, v) h
      have := ih htail h
      simpa [lookupCI, List.find?, hfalse] using this

theorem recordLookup_map {cols : List String} {k : String}
    (f : String → Value)
    (hp : cols.Pairwise (fun a b => eqCI a b = false)) (hk : k ∈ cols) :
    recordLookup cols (cols.map f) k = some (f k) := by
  induction cols with
  | nil => cases hk
  | cons c rest ih =>
    rcases List.pairwise_cons.mp hp with ⟨hhead, htail⟩
    rcases List.mem_cons.mp hk with h | h
    · subst h
      simp [recordLookup, List.zip, List.find?, eqCI_refl]
    · have hfalse : eqCI c k = false := hhead k h
      have := ih htail h
      simpa [recordLookup, List.zip, List.find?, hfalse] using this

theorem find?_update {α : Type} {q : α → Bool} {g : α → α} {l : List α} {T : α}
    (hf : l.find? q = some T) (hW : q (g T) = true) :
    (l.map (fun U => if q U then g U else U)).find? q = some (g T) := by
  induction l with
  | nil => cases hf
  | cons x xs ih =>
    by_cases hx : q x = true
    · have hxT : x = T := by
        simp only [List.find?, hx] at hf
        exact (Option.some.injEq _ _).mp hf
      subst hxT
      simp [List.find?, hx, hW]
    · have hx' : q x = false := by revert hx; cases q x <;> simp
      simp only [List.find?, hx'] at hf
      simp [List.find?, hx', ih hf]

theorem lookupTable_updateTable {db : DB} {t : String} {T W : Table}
    (hf : lookupTable db t = some T) (hW : eqCI W.name t = true) :
    lookupTable (updateTable db t W) t = some W := by
  exact find?_update hf hW

theorem colIndex_isSome_of_mem {cols : List String} {pk : String} (h : pk ∈ cols) :
    (colIndex cols pk).isSome = true := by
  induction cols with
  | nil => cases h
  | cons c rest ih =>
    rcases List.mem_cons.mp h with h' | h'
    · subst h'; simp [colIndex, eqCI_refl]
    · by_cases hc : eqCI c pk = true
      · simp [colIndex, hc]
      · have hc' : eqCI c pk = false := by revert hc; cases eqCI c pk <;> simp
        have := ih h'
        simp only [colIndex, hc', Bool.false_eq_true, if_false]
        cases hj : colIndex rest pk with
        | none => rw [hj] at this; cases this
        | some j => simp

theorem pkOfRow_buildRow {cols : List String} {pk : String}
    (m : List (String × Value)) (h : (colIndex cols pk).isSome = true) :
    pkOfRow cols pk (buildRow cols m) = (lookupCI m pk).getD Value.null := by
  induction cols with
  | nil => simp [colIndex] at h
  | cons c rest ih =>
    by_cases hc : eqCI c pk = true
    · have : lookupCI m c = lookupCI m pk := by
        unfold lookupCI
        rw [findCongr (fun kv => eqCI_congr_right hc kv.1) m]
      simp [pkOfRow, colIndex, hc, buildRow, this]
    · have hc' : eqCI c pk = false := by revert hc; cases eqCI c pk <;> simp
      have hcol : colIndex (c :: rest) pk = (colIndex rest pk).map (fun i => i + 1) := by
        simp [colIndex, hc']
      rw [hcol] at h
      cases hj : colIndex rest pk with
      | none => rw [hj] at h; simp at h
      | some j =>
        have ihj := ih (by rw [hj]; rfl)
        unfold pkOfRow at ihj ⊢
        rw [hcol, hj]
        rw [hj] at ihj
        show ((buildRow (c :: rest) m)[j + 1]?).getD Value.null = (lookupCI m pk).getD Value.null
        have hbr : buildRow (c :: rest) m =
            (lookupCI m c).getD Value.null :: buildRow rest m := rfl
        rw [hbr, List.getElem?_cons_succ]
        exact ihj

theorem pkOfRow_buildRow_of_mem {cols : List String} {pk : String}
    (m : List (String × Value)) (h : pk ∈ cols) :
    pkOfRow cols pk (buildRow cols m) = (lookupCI m pk).getD Value.null :=
  pkOfRow_buildRow m (colIndex_isSome_of_mem h)

theorem pkOfRow_buildRow_none {cols : List String} {pk : String}
    {m : List (String × Value)} (h : lookupCI m pk = none) :
    pkOfRow cols pk (buildRow cols m) = Value.null := by
  cases hi : (colIndex cols pk).isSome
  · unfold pkOfRow
    cases hj : colIndex cols pk with
    | none => rfl
    | some j => rw [hj] at hi; cases hi
  · rw [pkOfRow_buildRow m hi, h]; rfl

theorem mem_foldl_create (l : List Table) (db : DB) (U : Table)
    (h : U ∈ l.foldl createTableIfNotExists db) : U ∈ db ∨ U ∈ l := by
  induction l generalizing db with
  | nil => exact Or.inl h
  | cons T rest ih =>
    rcases ih (createTableIfNotExists db T) h with h' | h'
    · unfold createTableIfNotExists at h'
      by_cases hs : (lookupTable db T.name).isSome
      · rw [if_pos hs] at h'; exact Or.inl h'
      · rw [if_neg hs] at h'
        rcases List.mem_append.mp h' with h'' | h''
        · exact Or.inl h''
        · exact Or.inr (by simpa using Or.inl (List.mem_singleton.mp h''))
    · exact Or.inr (List.mem_cons_of_mem _ h')

theorem mem_init_db {db : DB} {U : Table} (h : U ∈ init_db db) :
    U ∈ db ∨ U ∈ schemaList :=
  mem_foldl_create schemaList db U h

theorem insert_row_ok {db db' : DB} {t : String} {m : List (String × Value)}
    (h : insert_row db t m = .ok db') :
    ∃ T, lookupTable db t = some T ∧
      (m.all (fun kv => T.cols.any (fun col => eqCI kv.1 col))) = true ∧
      ¬(pkValOf T m ≠ Value.null ∧
        ∃ r ∈ T.rows, pkOfRow T.cols T.pkCol r = pkValOf T m) ∧
      db' = updateTable db t { T with rows := T.rows ++ [buildRow T.cols m] } := by
  unfold insert_row at h
  split at h
  · exact (Except.noConfusion h)
  · split at h
    · exact (Except.noConfusion h)
    next T hT =>
      split at h
      next hall =>
        split at h
        next hconf => exact (Except.noConfusion h)
        next hconf =>
          exact ⟨T, hT, hall, hconf, ((Except.ok.injEq _ _).mp h).symm⟩
      · exact (Except.noConfusion h)

theorem delete_all_rows_ok {db db' : DB} {t : String}
    (h : delete_all_rows db t = .ok db') :
    db' = db.map (fun U => if eqCI U.name t then { U with rows := [] } else U) := by
  unfold delete_all_rows at h
  cases hT : lookupTable db t with
  | none => rw [hT] at h; exact (Except.noConfusion h)
  | some T =>
    rw [hT] at h
    exact ((Except.ok.injEq _ _).mp h).symm

theorem lookupTable_name {db : DB} {t : String} {T : Table}
    (h : lookupTable db t = some T) : eqCI T.name t = true := by
  unfold lookupTable at h
  simpa using List.find?_some h

theorem pkOfRow_of_colIndex_none {cols : List String} {pk : String}
    (h : colIndex cols pk = none) (r : List Value) :
    pkOfRow cols pk r = Value.null := by
  unfold pkOfRow
  rw [h]

theorem insert_row_success {db : DB} {t : String} {T : Table}
    {m : List (String × Value)}
    (hT : lookupTable db t = some T)
    (hall : (m.all (fun kv => T.cols.any (fun col => eqCI kv.1 col))) = true)
    (hconf : ¬(pkValOf T m ≠ Value.null ∧
      ∃ r ∈ T.rows, pkOfRow T.cols T.pkCol r = pkValOf T m))
    (hne : m.isEmpty = false) :
    insert_row db t m =
      .ok (updateTable db t { T with rows := T.rows ++ [buildRow T.cols m] }) := by
  unfold insert_row
  rw [if_neg (by simp [hne])]
  simp only [hT]
  rw [if_pos hall, if_neg hconf]

theorem isEmptyFalse_of_perm {m : List (String × Value)} {cols : List String}
    (hkeys : (m.map Prod.fst).Perm cols) (hc : cols ≠ []) :
    m.isEmpty = false := by
  cases m with
  | nil => exact absurd (List.Perm.eq_nil hkeys.symm) hc
  | cons p rest => rfl

theorem all_resolve_of_perm {m : List (String × Value)} {cols : List String}
    (hkeys : (m.map Prod.fst).Perm cols) :
    (m.all (fun kv => cols.any (fun col => eqCI kv.1 col))) = true := by
  rw [List.all_eq_true]
  intro kv hkv
  rw [List.any_eq_true]
  exact ⟨kv.1, hkeys.subset (List.mem_map_of_mem Prod.fst hkv), eqCI_refl kv.1⟩

theorem toHexChars_length (w n : Nat) : (toHexChars w n).length = w := by
  induction w generalizing n with
  | zero => rfl
  | succ w ih => simp [toHexChars, ih]

theorem toHexChars_hex (w n : Nat) : (toHexChars w n).all isLowerHexDigit = true := by
  have hd : ∀ m, m < 16 → isLowerHexDigit (hexDigit m) = true := by decide
  induction w generalizing n with
  | zero => rfl
  | succ w ih =>
    simp only [toHexChars, List.all_append, Bool.and_eq_true]
    exact ⟨ih (n / 16), by simp [hd (n % 16) (Nat.mod_lt n (by norm_num))]⟩

theorem uuidChars_take8 (n : Nat) :
    (uuidChars n).take 8 = toHexChars 8 (n / 2 ^ 96) := by
  have key : ∀ (l l' : List Char), l.length = 8 → (l ++ l').take 8 = l := by
    intro l l' h
    rw [← h, List.take_left]
  exact key _ _ (toHexChars_length 8 _)

theorem uuidChars_length (n : Nat) : (uuidChars n).length = 36 := by
  simp [uuidChars, toHexChars_length]

theorem genId_length (r : Nat) : (generate_unique_id r).length = 8 := by
  show ((uuidChars (uuid4Of r)).take 8).length = 8
  rw [uuidChars_take8, toHexChars_length]

/-! ### Claim theorems -/

/-- Claim C6: for every draw `r` of 128 random bits, `generate_unique_id`
returns exactly the first 8 characters of the 36-character canonical
textual form of the version-4 UUID built from `r`.  The function takes and
returns no store state, so it has no side effect on the persisted state. -/
theorem c6_generate_id_is_uuid_prefix (r : Nat) :
    (∃ rest, uuidChars (uuid4Of r) = (generate_unique_id r).data ++ rest) ∧
    (generate_unique_id r).length = 8 ∧
    (uuidChars (uuid4Of r)).length = 36 := by
  refine ⟨⟨(uuidChars (uuid4Of r)).drop 8, ?_⟩, genId_length r, uuidChars_length _⟩
  show uuidChars (uuid4Of r) = (uuidChars (uuid4Of r)).take 8 ++ _
  rw [List.take_append_drop]

/-- Claim C9: every `generate_unique_id` value is exactly 8 characters and
each character is a lowercase hexadecimal digit; in the canonical UUID text
the first hyphen sits at index 8, so the truncation never includes one. -/
theorem c9_id_eight_lower_hex (r : Nat) :
    (generate_unique_id r).length = 8 ∧
    ((generate_unique_id r).data.all isLowerHexDigit) = true ∧
    (uuidChars (uuid4Of r))[8]? = some '-' := by
  refine ⟨genId_length r, ?_, ?_⟩
  · show ((uuidChars (uuid4Of r)).take 8).all isLowerHexDigit = true
    rw [uuidChars_take8]
    exact toHexChars_hex 8 _
  · show (toHexChars 8 (uuid4Of r / 2 ^ 96) ++ '-' :: _)[8]? = some '-'
    have h8 : (toHexChars 8 (uuid4Of r / 2 ^ 96)).length = 8 := toHexChars_length 8 _
    rw [List.getElem?_append_right (by rw [h8]), h8]
    rfl

/-- Claim C5: `initialize_db` is idempotent with create-if-absent
semantics: on a store where the five schemas already exist (whatever rows
they hold) it changes nothing, and on a fresh store it followed by
`fetch_table_data` yields an empty sequence for every valid name. -/
theorem c5_init_idempotent :
    (∀ db : DB, (∀ n ∈ validNames, (lookupTable db n).isSome = true) →
      init_db db = db) ∧
    (∀ n ∈ validNames,
      ∃ F, fetch_table_data (init_db []) n = .ok F ∧ F.rows = []) := by
  constructor
  · intro db h
    have hL := h "Leads" (by simp [validNames])
    have hP := h "Projects" (by simp [validNames])
    have hD := h "DailyUpdates" (by simp [validNames])
    have hE := h "Equipment" (by simp [validNames])
    have hV := h "Vendors" (by simp [validNames])
    show schemaList.foldl createTableIfNotExists db = db
    simp [schemaList, createTableIfNotExists, leadsSchema, projectsSchema,
      dailyUpdatesSchema, equipmentSchema, vendorsSchema, hL, hP, hD, hE, hV]
  · intro n hn
    simp only [validNames, List.mem_cons, List.not_mem_nil, or_false] at hn
    rcases hn with rfl | rfl | rfl | rfl | rfl
    · exact ⟨⟨leadsSchema.cols, []⟩, rfl, rfl⟩
    · exact ⟨⟨projectsSchema.cols, []⟩, rfl, rfl⟩
    · exact ⟨⟨dailyUpdatesSchema.cols, []⟩, rfl, rfl⟩
    · exact ⟨⟨equipmentSchema.cols, []⟩, rfl, rfl⟩
    · exact ⟨⟨vendorsSchema.cols, []⟩, rfl, rfl⟩

/-- Witness for C5: re-running `initialize_db` on an initialized fresh
store changes nothing, and fetching Vendors from a fresh store is empty. -/
theorem c5_init_idempotent_witness :
    init_db (init_db []) = init_db [] ∧
    ∃ F, fetch_table_data (init_db []) "Vendors" = .ok F ∧ F.rows = [] :=
  ⟨c5_init_idempotent.1 (init_db []) (by decide),
   c5_init_idempotent.2 "Vendors" (by decide)⟩

/-- Claim C4: on any store containing the collection, `DELETE FROM c`
succeeds, a subsequent fetch returns the empty sequence, the schema is
retained, and subsequent inserts (with a full set of field names —
necessarily nonempty, as every collection has columns) succeed. -/
theorem c4_delete_all_then_empty (c : String) (db : DB) (T : Table)
    (hc : c ∈ validNames) (hT : lookupTable db c = some T)
    (hcols : T.cols ≠ []) :
    ∃ db', delete_all_rows db c = .ok db' ∧
      fetch_table_data db' c = .ok ⟨T.cols, []⟩ ∧
      lookupTable db' c = some { T with rows := [] } ∧
      ∀ m : List (String × Value), (m.map Prod.fst).Perm T.cols →
        succeeds (insert_row db' c m) = true := by
  have hq : eqCI T.name c = true := lookupTable_name hT
  have hlook : lookupTable
      (db.map (fun U => if eqCI U.name c then { U with rows := [] } else U)) c =
      some { T with rows := [] } := find?_update hT hq
  refine ⟨db.map (fun U => if eqCI U.name c then { U with rows := [] } else U),
    ?_, ?_, hlook, ?_⟩
  · unfold delete_all_rows
    rw [hT]
  · unfold fetch_table_data
    rw [hlook]
  · intro m hperm
    have hall := all_resolve_of_perm hperm
    have hall' : (m.all (fun kv =>
        (Table.cols { T with rows := [] }).any (fun col => eqCI kv.1 col))) = true := by
      simpa using hall
    have hins := insert_row_success hlook hall'
      (by rintro ⟨_, r, hr, _⟩; cases hr)
      (isEmptyFalse_of_perm hperm hcols)
    rw [hins]
    rfl

/-- Witness for C4: clearing Leads on a store holding one Lead leaves an
empty collection whose schema still accepts inserts. -/
theorem c4_delete_all_then_empty_witness :
    ∃ db', delete_all_rows dbDemo "Leads" = .ok db' ∧
      fetch_table_data db' "Leads" = .ok ⟨leadsSchema.cols, []⟩ ∧
      lookupTable db' "Leads" = some { leadsSchema with rows := [] } ∧
      succeeds (insert_row db' "Leads" fullLeadExample) = true := by
  obtain ⟨db', h1, h2, h3, h4⟩ :=
    c4_delete_all_then_empty "Leads" dbDemo { leadsSchema with rows := [demoLeadRow] }
      (by decide) (by decide) (by decide)
  exact ⟨db', h1, h2, h3, h4 fullLeadExample (by decide)⟩

/-- Claim C1: on a store whose collection `c` is empty, inserting a
field-mapping `m` that covers the collection's fields and then fetching
yields exactly one record, whose value under every field name of `m` is
the value `m` supplies. -/
theorem c1_insert_then_fetch_single (c : String) (db : DB) (T : Table)
    (m : List (String × Value))
    (hc : c ∈ validNames) (hT : lookupTable db c = some T)
    (hcols : T.cols ≠ [])
    (hempty : T.rows = []) (hdist : ciDistinct T.cols = true)
    (hkeys : (m.map Prod.fst).Perm T.cols) :
    ∃ db', insert_row db c m = .ok db' ∧
      ∃ F, fetch_table_data db' c = .ok F ∧
        F.rows = [buildRow T.cols m] ∧
        ∀ kv ∈ m, recordLookup F.cols (buildRow T.cols m) kv.1 = some kv.2 := by
  have hall := all_resolve_of_perm hkeys
  have hconf : ¬(pkValOf T m ≠ Value.null ∧
      ∃ r ∈ T.rows, pkOfRow T.cols T.pkCol r = pkValOf T m) := by
    rintro ⟨_, r, hr, _⟩
    rw [hempty] at hr
    cases hr
  have hins := insert_row_success hT hall hconf (isEmptyFalse_of_perm hkeys hcols)
  have hq : eqCI T.name c = true := lookupTable_name hT
  have hlook : lookupTable
      (updateTable db c { T with rows := T.rows ++ [buildRow T.cols m] }) c =
      some { T with rows := T.rows ++ [buildRow T.cols m] } := find?_update hT hq
  refine ⟨_, hins, ⟨T.cols, T.rows ++ [buildRow T.cols m]⟩, ?_, ?_, ?_⟩
  · unfold fetch_table_data
    rw [hlook]
  · show T.rows ++ [buildRow T.cols m] = [buildRow T.cols m]
    rw [hempty]
    rfl
  · intro kv hkv
    have hpairCols : T.cols.Pairwise (fun a b => eqCI a b = false) :=
      (ciDistinct_iff T.cols).mp hdist
    have hmem : kv.1 ∈ T.cols :=
      hkeys.subset (List.mem_map_of_mem Prod.fst hkv)
    have hsymm : ∀ {x y : String}, eqCI x y = false → eqCI y x = false := by
      intro x y h
      rw [eqCI_symm]
      exact h
    have hpairKeys : (m.map Prod.fst).Pairwise (fun a b => eqCI a b = false) :=
      (hkeys.pairwise_iff (fun h => hsymm h)).mpr hpairCols
    have hpairM : m.Pairwise (fun p q => eqCI p.1 q.1 = false) :=
      List.pairwise_map.mp hpairKeys
    have hval : lookupCI m kv.1 = some kv.2 :=
      lookupCI_of_pairwise hpairM (by simpa using hkv)
    show recordLookup T.cols
      (T.cols.map (fun col => (lookupCI m col).getD Value.null)) kv.1 = some kv.2
    rw [recordLookup_map (fun col => (lookupCI m col).getD Value.null) hpairCols hmem,
      hval]
    rfl

/-- Witness for C1: the spec.md §8 Lead scenario on a fresh store. -/
theorem c1_insert_then_fetch_single_witness :
    ∃ db', insert_row (init_db []) "Leads" fullLeadExample = .ok db' ∧
      ∃ F, fetch_table_data db' "Leads" = .ok F ∧
        F.rows = [buildRow leadsSchema.cols fullLeadExample] ∧
        ∀ kv ∈ fullLeadExample,
          recordLookup F.cols (buildRow leadsSchema.cols fullLeadExample) kv.1 =
            some kv.2 :=
  c1_insert_then_fetch_single "Leads" (init_db []) leadsSchema fullLeadExample
    (by decide) (by decide) (by decide) (by decide) (by decide) (by decide)

/-- Claim C7: inserting a Project whose LeadID matches no Lead succeeds
(referential fields are not validated: the code never enables SQLite
foreign-key enforcement), and the fetched collection contains the record
with that LeadID value intact.  The hypothesis about the Leads rows is
never needed by the proof, which is the point of the claim. -/
theorem c7_dangling_lead_reference (db : DB) (T : Table)
    (m : List (String × Value)) (v : Value)
    (hT : lookupTable db "Projects" = some T)
    (hcols : T.cols = projectsSchema.cols) (hpk : T.pkCol = "ProjectID")
    (hkeys : (m.map Prod.fst).Perm T.cols)
    (hlead : lookupCI m "LeadID" = some v)
    (hnoconf : ∀ r ∈ T.rows, pkOfRow T.cols T.pkCol r ≠ pkValOf T m)
    (horphan : ∀ r ∈ tableRows db "Leads",
      pkOfRow leadsSchema.cols leadsSchema.pkCol r ≠ v) :
    ∃ db', insert_row db "Projects" m = .ok db' ∧
      ∃ F, fetch_table_data db' "Projects" = .ok F ∧
        buildRow T.cols m ∈ F.rows ∧
        recordLookup T.cols (buildRow T.cols m) "LeadID" = some v := by
  have hall := all_resolve_of_perm hkeys
  have hconf : ¬(pkValOf T m ≠ Value.null ∧
      ∃ r ∈ T.rows, pkOfRow T.cols T.pkCol r = pkValOf T m) := by
    rintro ⟨_, r, hr, heq⟩
    exact hnoconf r hr heq
  have hins := insert_row_success hT hall hconf
    (isEmptyFalse_of_perm hkeys (by rw [hcols]; decide))
  have hq : eqCI T.name "Projects" = true := lookupTable_name hT
  have hlook : lookupTable
      (updateTable db "Projects" { T with rows := T.rows ++ [buildRow T.cols m] })
      "Projects" =
      some { T with rows := T.rows ++ [buildRow T.cols m] } := find?_update hT hq
  refine ⟨_, hins, ⟨T.cols, T.rows ++ [buildRow T.cols m]⟩, ?_, ?_, ?_⟩
  · unfold fetch_table_data
    rw [hlook]
  · show buildRow T.cols m ∈ T.rows ++ [buildRow T.cols m]
    simp
  · have hpairCols : T.cols.Pairwise (fun a b => eqCI a b = false) := by
      rw [hcols]
      exact (ciDistinct_iff _).mp (by decide)
    have hmem : "LeadID" ∈ T.cols := by
      rw [hcols]
      decide
    show recordLookup T.cols
      (T.cols.map (fun col => (lookupCI m col).getD Value.null)) "LeadID" = some v
    rw [recordLookup_map (fun col => (lookupCI m col).getD Value.null) hpairCols hmem,
      hlead]
    rfl

/-- Witness for C7: the spec.md §8 scenario — a Project referencing the
nonexistent LeadID `zzzz0000` on a store holding one unrelated Lead. -/
theorem c7_dangling_lead_reference_witness :
    ∃ db', insert_row dbDemo "Projects" projectExample = .ok db' ∧
      ∃ F, fetch_table_data db' "Projects" = .ok F ∧
        buildRow projectsSchema.cols projectExample ∈ F.rows ∧
        recordLookup projectsSchema.cols (buildRow projectsSchema.cols projectExample)
          "LeadID" = some (Value.text "zzzz0000") :=
  c7_dangling_lead_reference dbDemo projectsSchema projectExample
    (Value.text "zzzz0000") (by decide) (by decide) (by decide) (by decide)
    (by decide) (by decide) (by decide)

/-- Claim C8: a successful insert appends exactly the row built from the
supplied field values, and the stored row's primary-key value is whatever
the mapping supplied for the key column (NULL if nothing was supplied):
the store synthesizes no identifier during insert. -/
theorem c8_insert_stores_caller_id (db db' : DB) (t : String) (T : Table)
    (m : List (String × Value))
    (hT : lookupTable db t = some T) (hpk : T.pkCol ∈ T.cols)
    (hok : insert_row db t m = .ok db') :
    ∃ T', lookupTable db' t = some T' ∧ T'.cols = T.cols ∧
      T'.rows = T.rows ++ [buildRow T.cols m] ∧
      pkOfRow T.cols T.pkCol (buildRow T.cols m) =
        (lookupCI m T.pkCol).getD Value.null := by
  rcases insert_row_ok hok with ⟨T0, hT0, _, _, hdb⟩
  have hTT : T0 = T := Option.some.inj (hT0.symm.trans hT)
  subst hTT
  subst hdb
  have hq : eqCI T0.name t = true := lookupTable_name hT
  exact ⟨{ T0 with rows := T0.rows ++ [buildRow T0.cols m] },
    find?_update hT0 hq, rfl, rfl, pkOfRow_buildRow_of_mem m hpk⟩

/-- Witness for C8: inserting the §8 Lead stores the caller-supplied id
`abc12345` as the row's key. -/
theorem c8_insert_stores_caller_id_witness :
    ∃ T', lookupTable dbDemo "Leads" = some T' ∧ T'.cols = leadsSchema.cols ∧
      T'.rows = leadsSchema.rows ++ [buildRow leadsSchema.cols fullLeadExample] ∧
      pkOfRow leadsSchema.cols leadsSchema.pkCol
        (buildRow leadsSchema.cols fullLeadExample) =
        (lookupCI fullLeadExample "LeadID").getD Value.null :=
  c8_insert_stores_caller_id (init_db []) dbDemo "Leads" leadsSchema fullLeadExample
    (by decide) (by decide) (by rfl)

/-- Counterexample to C2 as stated: inserting into Leads a mapping that
omits required fields (here everything but LeadSource) does not fail —
`insert_row` validates nothing and SQLite stores NULL for every omitted
column, the TEXT primary key included — and the collection's contents
change: the fetch afterwards shows one row. -/
theorem c2_counterexample :
    succeeds (insert_row (init_db []) "Leads"
      [("LeadSource", Value.text "Referral")]) = true ∧
    (insert_row (init_db []) "Leads" [("LeadSource", Value.text "Referral")]).map
      (fun d => (fetch_table_data d "Leads").map Frame.rows) =
      .ok (.ok [[Value.null, Value.text "Referral", Value.null, Value.null,
        Value.null, Value.null]]) := by
  exact ⟨by decide, by rfl⟩

/-- Claim C2 (amended): an insert whose nonempty mapping omits the key
field (and any others) does not fail: the row is appended with NULL for
every omitted column — SQLite permits NULL even in the TEXT primary-key
column — and the prior rows are retained unchanged ahead of it.  The code
raises no SchemaError; it defines no such type.  Only the empty mapping
fails, and with an OperationalError: `insert_row` then builds the invalid
statement `INSERT INTO c () VALUES ()`, a SQLite syntax error. -/
theorem c2_amended_missing_field_inserts_null (db : DB) (c : String) (T : Table)
    (m : List (String × Value))
    (hne : m ≠ [])
    (hT : lookupTable db c = some T)
    (hres : (m.all (fun kv => T.cols.any (fun col => eqCI kv.1 col))) = true)
    (hmiss : lookupCI m T.pkCol = none) :
    (∃ db', insert_row db c m = .ok db' ∧
      ∃ F, fetch_table_data db' c = .ok F ∧
        F.rows = T.rows ++ [T.cols.map (fun col => (lookupCI m col).getD Value.null)] ∧
        pkOfRow T.cols T.pkCol (buildRow T.cols m) = Value.null) ∧
    insert_row db c [] = .error (.operationalError "syntax error") := by
  have hconf : ¬(pkValOf T m ≠ Value.null ∧
      ∃ r ∈ T.rows, pkOfRow T.cols T.pkCol r = pkValOf T m) := by
    rintro ⟨h1, _⟩
    apply h1
    show (lookupCI m T.pkCol).getD Value.null = Value.null
    rw [hmiss]
    rfl
  have hne' : m.isEmpty = false := by
    cases m with
    | nil => exact absurd rfl hne
    | cons p rest => rfl
  have hins := insert_row_success hT hres hconf hne'
  have hq : eqCI T.name c = true := lookupTable_name hT
  have hlook : lookupTable
      (updateTable db c { T with rows := T.rows ++ [buildRow T.cols m] }) c =
      some { T with rows := T.rows ++ [buildRow T.cols m] } := find?_update hT hq
  refine ⟨⟨_, hins, ⟨T.cols, T.rows ++ [buildRow T.cols m]⟩, ?_, rfl,
    pkOfRow_buildRow_none hmiss⟩, rfl⟩
  unfold fetch_table_data
  rw [hlook]

/-- Witness for the amended C2: the counterexample mapping, generically. -/
theorem c2_amended_missing_field_inserts_null_witness :
    (∃ db', insert_row (init_db []) "Leads"
        [("LeadSource", Value.text "Referral")] = .ok db' ∧
      ∃ F, fetch_table_data db' "Leads" = .ok F ∧
        F.rows = leadsSchema.rows ++ [leadsSchema.cols.map
          (fun col => (lookupCI [("LeadSource", Value.text "Referral")] col).getD
            Value.null)] ∧
        pkOfRow leadsSchema.cols leadsSchema.pkCol
          (buildRow leadsSchema.cols [("LeadSource", Value.text "Referral")]) =
          Value.null) ∧
    insert_row (init_db []) "Leads" [] = .error (.operationalError "syntax error") :=
  c2_amended_missing_field_inserts_null (init_db []) "Leads" leadsSchema
    [("LeadSource", Value.text "Referral")] (by decide) (by decide) (by decide)
    (by decide)

/-- Counterexample to C3 as stated: SQLite resolves table names
case-insensitively, so `LEADS`, `vendors` and `EQUIPMENT` — none of them
among the five collection names as spelled — make insert, fetch-all and
delete-all succeed instead of failing. -/
theorem c3_counterexample :
    ¬("LEADS" ∈ validNames) ∧
    succeeds (insert_row (init_db []) "LEADS" fullLeadExample) = true ∧
    ¬("vendors" ∈ validNames) ∧
    succeeds (fetch_table_data (init_db []) "vendors") = true ∧
    ¬("EQUIPMENT" ∈ validNames) ∧
    succeeds (delete_all_rows (init_db []) "EQUIPMENT") = true := by
  exact ⟨by decide, by decide, by decide, by decide, by decide, by decide⟩

/-- Claim C3 (amended): a (simple-identifier) name that matches none of
the five collection names even case-insensitively makes `insert_row`,
`fetch_table_data` and the bulk delete all fail with a sqlite3
OperationalError: `no such table` for the fetch, the delete, and any
insert with a nonempty mapping — an insert with an empty mapping also
fails with an OperationalError, but the earlier parse-time syntax error.
The code defines no SchemaError/StorageError distinction — and a name
matching one of the five up to ASCII case is accepted. -/
theorem c3_amended_unknown_name_errors (s : String)
    (h : ∀ n ∈ validNames, eqCI s n = false) :
    (∀ data : List (String × Value), ∃ e,
      insert_row (init_db []) s data = .error e) ∧
    (∀ data : List (String × Value), data ≠ [] →
      insert_row (init_db []) s data = .error (.operationalError "no such table")) ∧
    fetch_table_data (init_db []) s = .error (.operationalError "no such table") ∧
    delete_all_rows (init_db []) s = .error (.operationalError "no such table") := by
  have h1 : eqCI "Leads" s = false := by
    rw [eqCI_symm]; exact h "Leads" (by simp [validNames])
  have h2 : eqCI "Projects" s = false := by
    rw [eqCI_symm]; exact h "Projects" (by simp [validNames])
  have h3 : eqCI "DailyUpdates" s = false := by
    rw [eqCI_symm]; exact h "DailyUpdates" (by simp [validNames])
  have h4 : eqCI "Equipment" s = false := by
    rw [eqCI_symm]; exact h "Equipment" (by simp [validNames])
  have h5 : eqCI "Vendors" s = false := by
    rw [eqCI_symm]; exact h "Vendors" (by simp [validNames])
  have hdb : init_db [] = schemaList := by decide
  have hnone : lookupTable (init_db []) s = none := by
    rw [hdb]
    simp [schemaList, lookupTable, List.find?, leadsSchema, projectsSchema,
      dailyUpdatesSchema, equipmentSchema, vendorsSchema, h1, h2, h3, h4, h5]
  have hinsne : ∀ (p : String × Value) (rest : List (String × Value)),
      insert_row (init_db []) s (p :: rest) =
        .error (.operationalError "no such table") := by
    intro p rest
    unfold insert_row
    rw [if_neg (by simp)]
    rw [hnone]
  refine ⟨?_, ?_, ?_, ?_⟩
  · intro data
    cases data with
    | nil => exact ⟨.operationalError "syntax error", rfl⟩
    | cons p rest => exact ⟨.operationalError "no such table", hinsne p rest⟩
  · intro data hd
    cases data with
    | nil => exact absurd rfl hd
    | cons p rest => exact hinsne p rest
  · unfold fetch_table_data; rw [hnone]
  · unfold delete_all_rows; rw [hnone]

/-- Witness for the amended C3: the unknown name `Gadgets`, with both an
empty and a nonempty field-mapping for the insert. -/
theorem c3_amended_unknown_name_errors_witness :
    (∃ e, insert_row (init_db []) "Gadgets" [] = .error e) ∧
    insert_row (init_db []) "Gadgets" [("VendorID", Value.null)] =
      .error (.operationalError "no such table") ∧
    fetch_table_data (init_db []) "Gadgets" =
      .error (.operationalError "no such table") ∧
    delete_all_rows (init_db []) "Gadgets" =
      .error (.operationalError "no such table") := by
  obtain ⟨h1, h2, h3, h4⟩ := c3_amended_unknown_name_errors "Gadgets" (by decide)
  exact ⟨h1 [], h2 [("VendorID", Value.null)] (by decide), h3, h4⟩

/-- Inserting preserves the per-table uniqueness of non-NULL keys. -/
theorem uniqueIds_insert {db db' : DB} {t : String} {m : List (String × Value)}
    (h : UniqueIds db) (hok : insert_row db t m = .ok db') : UniqueIds db' := by
  rcases insert_row_ok hok with ⟨T, hT, _, hconf, hdb⟩
  subst hdb
  intro U hU
  unfold updateTable at hU
  rcases List.mem_map.mp hU with ⟨U0, hU0, hmap⟩
  by_cases hq : eqCI U0.name t = true
  · rw [if_pos hq] at hmap
    subst hmap
    have hTmem : T ∈ db := List.mem_of_find?_eq_some hT
    have hTpair := h T hTmem
    show (T.rows ++ [buildRow T.cols m]).Pairwise
      (fun r s => ¬(pkOfRow T.cols T.pkCol r ≠ Value.null ∧
        pkOfRow T.cols T.pkCol r = pkOfRow T.cols T.pkCol s))
    rw [List.pairwise_append]
    refine ⟨hTpair, by simp, ?_⟩
    intro r hr s hs
    rw [List.mem_singleton] at hs
    subst hs
    rintro ⟨hrnull, hreq⟩
    cases hci : colIndex T.cols T.pkCol with
    | none =>
      exact hrnull (by rw [hreq]; exact pkOfRow_of_colIndex_none hci _)
    | some i =>
      have hpb := @pkOfRow_buildRow T.cols T.pkCol m (by rw [hci]; rfl)
      apply hconf
      refine ⟨?_, r, hr, ?_⟩
      · intro h0
        apply hrnull
        rw [hreq, hpb]
        exact h0
      · rw [hreq, hpb]
        rfl
  · rw [if_neg hq] at hmap
    subst hmap
    exact h U0 hU0

/-- Clearing a table preserves the per-table uniqueness of non-NULL keys. -/
theorem uniqueIds_delete {db db' : DB} {t : String}
    (h : UniqueIds db) (hok : delete_all_rows db t = .ok db') : UniqueIds db' := by
  have hdb := delete_all_rows_ok hok
  subst hdb
  intro U hU
  rcases List.mem_map.mp hU with ⟨U0, hU0, hmap⟩
  by_cases hq : eqCI U0.name t = true
  · rw [if_pos hq] at hmap
    subst hmap
    exact List.Pairwise.nil
  · rw [if_neg hq] at hmap
    subst hmap
    exact h U0 hU0

/-- `initialize_db` preserves the per-table uniqueness of non-NULL keys
(it only ever adds empty tables). -/
theorem uniqueIds_init {db : DB} (h : UniqueIds db) : UniqueIds (init_db db) := by
  intro U hU
  rcases mem_init_db hU with h' | h'
  · exact h U h'
  · simp only [schemaList, List.mem_cons, List.not_mem_nil, or_false] at h'
    rcases h' with rfl | rfl | rfl | rfl | rfl <;> exact List.Pairwise.nil

/-- Every reachable store state keeps non-NULL keys unique per table. -/
theorem reachable_uniqueIds (db : DB) (h : Reachable db) : UniqueIds db := by
  induction h with
  | init => exact uniqueIds_init (fun U hU => absurd hU (List.not_mem_nil U))
  | reinit _ ih => exact uniqueIds_init ih
  | insert _ hok ih => exact uniqueIds_insert ih hok
  | delete _ hok ih => exact uniqueIds_delete ih hok

/-- Counterexample to C10 as stated: starting from a fresh initialized
store, inserting twice a Leads mapping that omits LeadID succeeds both
times — the second row's id equals the first row's id (both are NULL, a
value SQLite admits in a TEXT primary key and does not treat as a
duplicate) — so a reachable state holds two records of the same collection
with equal ids. -/
theorem c10_counterexample :
    ((insert_row (init_db []) "Leads" [("LeadSource", Value.text "x")]).bind
      (fun d => insert_row d "Leads" [("LeadSource", Value.text "x")])).map
        (fun d => tableRows d "Leads") =
      .ok [[Value.null, Value.text "x", Value.null, Value.null, Value.null, Value.null],
           [Value.null, Value.text "x", Value.null, Value.null, Value.null, Value.null]] ∧
    pkOfRow leadsSchema.cols leadsSchema.pkCol
      [Value.null, Value.text "x", Value.null, Value.null, Value.null, Value.null] =
      Value.null := by
  exact ⟨by rfl, by decide⟩

/-- Claim C10 (amended): the id column is a primary key for non-NULL
values: inserting a record whose non-NULL id equals the id of a record
already present fails with the UNIQUE-constraint IntegrityError (the state
value the caller holds is unchanged, as the operation returns only the
error), and no reachable store state holds two records of one collection
with equal non-NULL ids.  Records with NULL ids — reachable because
omitted fields are stored as NULL — are exempt, per SQLite key rules. -/
theorem c10_amended_nonnull_ids_unique :
    (∀ (db : DB) (c : String) (T : Table) (m : List (String × Value)),
      lookupTable db c = some T →
      (m.all (fun kv => T.cols.any (fun col => eqCI kv.1 col))) = true →
      pkValOf T m ≠ Value.null →
      (∃ r ∈ T.rows, pkOfRow T.cols T.pkCol r = pkValOf T m) →
      insert_row db c m = .error (.integrityError "UNIQUE constraint failed")) ∧
    (∀ db : DB, Reachable db → UniqueIds db) := by
  constructor
  · intro db c T m hT hall hnn hdup
    have hne : m.isEmpty = false := by
      cases m with
      | nil => exact absurd rfl hnn
      | cons p rest => rfl
    unfold insert_row
    rw [if_neg (by simp [hne])]
    simp only [hT]
    rw [if_pos hall, if_pos ⟨hnn, hdup⟩]
  · exact reachable_uniqueIds

/-- Witness for the amended C10: re-inserting the id `abc12345` already
present in `dbDemo` fails with the UNIQUE-constraint error, and the fresh
initialized store satisfies the uniqueness invariant. -/
theorem c10_amended_nonnull_ids_unique_witness :
    insert_row dbDemo "Leads"
      [("LeadID", Value.text "abc12345"), ("LeadSource", Value.text "Other")] =
      .error (.integrityError "UNIQUE constraint failed") ∧
    UniqueIds (init_db []) :=
  ⟨c10_amended_nonnull_ids_unique.1 dbDemo "Leads"
      { leadsSchema with rows := [demoLeadRow] }
      [("LeadID", Value.text "abc12345"), ("LeadSource", Value.text "Other")]
      (by decide) (by decide) (by decide) (by decide),
   c10_amended_nonnull_ids_unique.2 (init_db []) Reachable.init⟩

end Sana
